import Mathlib

/-!
Verification of the course recommendation engine
(`apex_backend/learning/recommender.py`, class `CourseRecommender`).

The Python source is shallowly embedded below:

* course records (`Course`) carry the text fields that influence similarity;
  display-only fields (price, rating, …) are pass-through payload and are
  not modelled, as they never influence the engine's decisions;
* pandas `NaN` / Django `None` field values are modelled by `Option.none`;
* Python strings are modelled at the `List Char` level so that every string
  operation reduces inside the kernel (`String.toLower` and friends use
  position-based loops that do not);
* float arithmetic is modelled over `ℝ` (TF-IDF weights involve `log` and
  the cosine denominators involve `sqrt`); everything up to the weighting
  stage (tokenization, counting, vocabulary pruning) is computable;
* the ranking / filtering / truncation stage of the two query functions is
  defined generically over an arbitrary `LinearOrder` of scores, so that it
  can be instantiated at `ℝ` (the real engine) and evaluated at `ℚ`
  (concrete checks): the code at lines 289-348 and 383-425 manipulates the
  similarity row purely through comparisons;
* raised Python exceptions are modelled with `Except`, and the mutable
  engine object (`courses_df`, `vectorizer`, `tfidf_matrix`, `cosine_sim`,
  `_is_fitted`) with an explicit `EngineState` threaded through the
  stateful operations `fit` / `refresh` / queries.  The database read done
  by `load_data` is a parameter of type `Except Unit (List Course)`
  (`.error` = the DB query raised).
-/

namespace ApexRec

/-- A course record as handed to the engine by `load_data` (the relevant
columns of the `Course.objects.filter(is_published=True).values(...)`
query).  `none` models a missing (`NaN`/`None`) value, for which
`pd.notna` is false. -/
structure Course where
  id : String
  title : Option String := none
  description : Option String := none
  category : Option String := none
  difficulty : Option String := none
  tags : Option String := none
  instructor : Option String := none
deriving DecidableEq, Inhabited

/-- Python `str.lower()` (ASCII; course text is ASCII in this corpus). -/
def strLower (s : String) : String := String.mk (s.data.map Char.toLower)

/-- Characters stripped by Python `str.strip()` (whitespace). -/
def stripChars (cs : List Char) : List Char :=
  ((cs.dropWhile Char.isWhitespace).reverse.dropWhile Char.isWhitespace).reverse

/-- Python `str.strip()`. -/
def stripStr (s : String) : String := String.mk (stripChars s.data)

/-- Python `' '.join(parts)`. -/
def joinSpace : List String → String
  | [] => ""
  | [p] => p
  | p :: rest => p ++ " " ++ joinSpace rest

/-- Python `s.replace('_', ' ')` for the single-character pattern used on
the category field. -/
def underscoreToSpace (s : String) : String :=
  String.mk (s.data.map (fun c => if c = '_' then ' ' else c))

/-- The `parts` list built by `CourseRecommender._create_combined_text`
(recommender.py lines 132-158): title three times, then description, then
the underscore-cleaned category twice, then difficulty, tags, instructor;
a field failing `pd.notna` is skipped. -/
def combinedParts (c : Course) : List String :=
  (match c.title with | some t => [t, t, t] | none => [])
  ++ (match c.description with | some d => [d] | none => [])
  ++ (match c.category with
      | some g => [underscoreToSpace g, underscoreToSpace g] | none => [])
  ++ (match c.difficulty with | some d => [d] | none => [])
  ++ (match c.tags with | some t => [t] | none => [])
  ++ (match c.instructor with | some i => [i] | none => [])

/-- `CourseRecommender._create_combined_text` (lines 122-161):
`' '.join(parts).lower().strip()`. -/
def createCombinedText (c : Course) : String :=
  stripStr (strLower (joinSpace (combinedParts c)))

/-- The combined text exactly as the specification sentence for claim C5
words it: the *raw* fields concatenated with their multiplicities
(title 3x, category 2x, the rest 1x) and lower-cased — with no
underscore-cleaning of the category and no final strip. -/
def combinedTextClaimed (c : Course) : String :=
  strLower (joinSpace (
    (c.title.elim [] fun t => List.replicate 3 t)
    ++ (c.description.elim [] fun d => [d])
    ++ (c.category.elim [] fun g => List.replicate 2 g)
    ++ (c.difficulty.elim [] fun d => [d])
    ++ (c.tags.elim [] fun t => [t])
    ++ (c.instructor.elim [] fun i => [i])))

/-- The combined text as the amended claim words it: as claimed, except
that the two category copies have underscores replaced by spaces and the
final string is stripped of edge whitespace. -/
def combinedTextAmended (c : Course) : String :=
  stripStr (strLower (joinSpace (
    (c.title.elim [] fun t => List.replicate 3 t)
    ++ (c.description.elim [] fun d => [d])
    ++ (c.category.elim [] fun g => List.replicate 2 (underscoreToSpace g))
    ++ (c.difficulty.elim [] fun d => [d])
    ++ (c.tags.elim [] fun t => [t])
    ++ (c.instructor.elim [] fun i => [i]))))

/-- A concrete course whose category contains an underscore. -/
def courseU : Course :=
  { id := "u1", title := some "T", category := some "data_science" }

/-! ## Tokenization and vocabulary (`TfidfVectorizer` configuration of
`CourseRecommender.fit`, lines 188-215)

`token_pattern=r'\b[a-zA-Z]{2,}\b'` over `\w = [A-Za-z0-9_]` boundaries:
a token is a maximal run of word characters that consists solely of
letters and has length at least 2.  `lowercase=True` re-lowercases the
(already lower-cased) document; `strip_accents='unicode'` is the identity
on the ASCII corpus text and is modelled as such. -/

/-- A regex word character (`\w`). -/
def isWordChar (c : Char) : Bool := c.isAlphanum || c = '_'

/-- Split a character list into its maximal runs of word characters
(`cur` is the current run, reversed). -/
def runsAux (cur : List Char) : List Char → List (List Char)
  | [] => if cur.isEmpty then [] else [cur.reverse]
  | c :: rest =>
    if isWordChar c then runsAux (c :: cur) rest
    else if cur.isEmpty then runsAux [] rest
    else cur.reverse :: runsAux [] rest

/-- `re.findall(r'\b[a-zA-Z]{2,}\b', text)`: the maximal word-character
runs that are all-alphabetic and of length at least 2. -/
def tokenizeChars (cs : List Char) : List String :=
  (runsAux [] cs).filterMap fun run =>
    if decide (2 ≤ run.length) && run.all Char.isAlpha then some (String.mk run)
    else none

/-- `sklearn.feature_extraction.text.ENGLISH_STOP_WORDS`
(`stop_words='english'`). -/
def englishStopWords : List String :=
  ["a", "about", "above", "across", "after", "afterwards", "again",
   "against", "all", "almost", "alone", "along", "already", "also",
   "although", "always", "am", "among", "amongst", "amoungst", "amount",
   "an", "and", "another", "any", "anyhow", "anyone", "anything",
   "anyway", "anywhere", "are", "around", "as", "at", "back", "be",
   "became", "because", "become", "becomes", "becoming", "been",
   "before", "beforehand", "behind", "being", "below", "beside",
   "besides", "between", "beyond", "bill", "both", "bottom", "but",
   "by", "call", "can", "cannot", "cant", "co", "con", "could",
   "couldnt", "cry", "de", "describe", "detail", "do", "done", "down",
   "due", "during", "each", "eg", "eight", "either", "eleven", "else",
   "elsewhere", "empty", "enough", "etc", "even", "ever", "every",
   "everyone", "everything", "everywhere", "except", "few", "fifteen",
   "fifty", "fill", "find", "fire", "first", "five", "for", "former",
   "formerly", "forty", "found", "four", "from", "front", "full",
   "further", "get", "give", "go", "had", "has", "hasnt", "have", "he",
   "hence", "her", "here", "hereafter", "hereby", "herein", "hereupon",
   "hers", "herself", "him", "himself", "his", "how", "however",
   "hundred", "i", "ie", "if", "in", "inc", "indeed", "interest",
   "into", "is", "it", "its", "itself", "keep", "last", "latter",
   "latterly", "least", "less", "ltd", "made", "many", "may", "me",
   "meanwhile", "might", "mill", "mine", "more", "moreover", "most",
   "mostly", "move", "much", "must", "my", "myself", "name", "namely",
   "neither", "never", "nevertheless", "next", "nine", "no", "nobody",
   "none", "noone", "nor", "not", "nothing", "now", "nowhere", "of",
   "off", "often", "on", "once", "one", "only", "onto", "or", "other",
   "others", "otherwise", "our", "ours", "ourselves", "out", "over",
   "own", "part", "per", "perhaps", "please", "put", "rather", "re",
   "same", "see", "seem", "seemed", "seeming", "seems", "serious",
   "several", "she", "should", "show", "side", "since", "sincere",
   "six", "sixty", "so", "some", "somehow", "someone", "something",
   "sometime", "sometimes", "somewhere", "still", "such", "system",
   "take", "ten", "than", "that", "the", "their", "them", "themselves",
   "then", "thence", "there", "thereafter", "thereby", "therefore",
   "therein", "thereupon", "these", "they", "thick", "thin", "third",
   "this", "those", "though", "three", "through", "throughout", "thru",
   "thus", "to", "together", "too", "top", "toward", "towards",
   "twelve", "twenty", "two", "un", "under", "until", "up", "upon",
   "us", "very", "via", "was", "we", "well", "were", "what", "whatever",
   "when", "whence", "whenever", "where", "whereafter", "whereas",
   "whereby", "wherein", "whereupon", "wherever", "whether", "which",
   "while", "whither", "who", "whoever", "whole", "whom", "whose",
   "why", "will", "with", "within", "without", "would", "yet", "you",
   "your", "yours", "yourself", "yourselves"]

/-- Stop-word removal (applied to the tokens before n-gram building, as
sklearn's `_word_ngrams` does). -/
def removeStop (toks : List String) : List String :=
  toks.filter fun t => !(englishStopWords.contains t)

/-- `ngram_range=(1, 2)`: the unigrams followed by the space-joined
bigrams of consecutive (stop-word-filtered) tokens. -/
def addBigrams (toks : List String) : List String :=
  toks ++ (toks.zip toks.tail).map fun p => p.1 ++ " " ++ p.2

/-- The terms (unigrams and bigrams) the vectorizer extracts from one
document. -/
def docTermsOfText (s : String) : List String :=
  addBigrams (removeStop (tokenizeChars (strLower s).data))

/-- The terms of a course's combined text. -/
def docTerms (c : Course) : List String := docTermsOfText (createCombinedText c)

/-- The terms of a free-text query: `get_recommendations_for_text` calls
`self.vectorizer.transform([query_text.lower()])` (line 378); the extra
outer `lower()` is idempotent with the vectorizer's own lowercasing. -/
def queryTerms (q : String) : List String := docTermsOfText (strLower q)

/-- Term frequency of term `t` in the document of course `c`. -/
def tfC (c : Course) (t : String) : Nat := (docTerms c).count t

/-- Document frequency of `t` in the corpus. -/
def dfC (cs : List Course) (t : String) : Nat :=
  cs.countP fun c => decide (0 < tfC c t)

/-- Total corpus frequency of `t` (sklearn ranks terms by it when the
`max_features` cap binds). -/
def totalTF (cs : List Course) (t : String) : Nat :=
  (cs.map fun c => tfC c t).sum

/-- All distinct candidate terms of the corpus. -/
def allTerms (cs : List Course) : List String :=
  ((cs.map docTerms).flatten).dedup

/-- `min_df=1`, `max_df=0.95`: keep a term iff its document frequency is
at most 95% of the corpus size (as integers, `20*df ≤ 19*N`; `min_df=1`
holds for every extracted term). -/
def prunedTerms (cs : List Course) : List String :=
  (allTerms cs).filter fun t => decide (20 * dfC cs t ≤ 19 * cs.length)

section StableSort

variable {α β : Type} [LinearOrder α]

/-- Stable insertion into a descending-by-key list: the inserted element
goes before the first element whose key is not larger, so an element
inserted from the left of the original order stays before equal keys. -/
def insDescBy (key : β → α) (x : β) : List β → List β
  | [] => [x]
  | q :: t => if key q ≤ key x then x :: q :: t else q :: insDescBy key x t

/-- Stable descending-by-key sort: produces the unique result that every
stable descending sort — such as Python's `sorted(key=..., reverse=True)`
at line 292 — produces. -/
def stableSortDescBy (key : β → α) : List β → List β
  | [] => []
  | x :: xs => insDescBy key x (stableSortDescBy key xs)

/-- Stable insertion into an ascending-by-key list. -/
def insAscBy (key : β → α) (x : β) : List β → List β
  | [] => [x]
  | q :: t => if key x ≤ key q then x :: q :: t else q :: insAscBy key x t

/-- Stable ascending-by-key sort: models `np.argsort` at line 384 (stable
for the small similarity arrays involved, where numpy's quicksort
degenerates to insertion sort). -/
def stableSortAscBy (key : β → α) : List β → List β
  | [] => []
  | x :: xs => insAscBy key x (stableSortAscBy key xs)

end StableSort

/-- The fitted vocabulary: the pruned terms, capped at
`max_features=5000` terms ranked by total corpus frequency (ties kept in
candidate order; the cap never binds in any corpus considered here). -/
def vocabulary (cs : List Course) : List String :=
  let p := prunedTerms cs
  if p.length ≤ 5000 then p else (stableSortDescBy (totalTF cs) p).take 5000

/-! ## Ranking, filtering and truncation

Lines 289-348 (`get_recommendations`) and 383-425
(`get_recommendations_for_text`) manipulate the similarity row only
through comparisons, so this stage is defined over an arbitrary linearly
ordered score type: it is instantiated at `ℝ` for the engine and can be
evaluated at `ℚ` on concrete rows. -/

section Selection

variable {α : Type} [LinearOrder α]

/-- A row entry survives the loop's two `continue` filters (lines
304-306 and 310-312): its score is not below `min_score`, and — when
`exclude_same_category` is set — its course's category differs from the
query course's category. -/
def eligibleB (corpus : List Course) (inputCat : Option String)
    (minScore : α) (excl : Bool) (p : ℕ × α) : Bool :=
  !(decide (p.2 < minScore))
    && !(excl && decide ((corpus.getD p.1 default).category = inputCat))

/-- The recommendation loop of lines 301-345: walk the ranked `(index,
score)` pairs, skip a pair below `min_score` (line 305), skip a pair of
the excluded category (line 311), append the rest, and `break` as soon as
`top_n <= len(recommendations)` (line 344; both query functions share
this shape, the text variant with the category filter disabled). -/
def recLoop (corpus : List Course) (inputCat : Option String)
    (minScore : α) (excl : Bool) (topN : ℕ) (acc : List (ℕ × α)) :
    List (ℕ × α) → List (ℕ × α)
  | [] => acc
  | p :: rest =>
    if p.2 < minScore then
      recLoop corpus inputCat minScore excl topN acc rest
    else if excl && decide ((corpus.getD p.1 default).category = inputCat) then
      recLoop corpus inputCat minScore excl topN acc rest
    else if topN ≤ (acc ++ [p]).length then acc ++ [p]
    else recLoop corpus inputCat minScore excl topN (acc ++ [p]) rest

/-- Lines 289-295: enumerate the similarity row, sort stably by score
descending, and drop the query course's own index. -/
def simScoresSorted (row : List α) (idx : ℕ) : List (ℕ × α) :=
  (stableSortDescBy Prod.snd row.enum).filter fun p => decide (p.1 ≠ idx)

/-- `get_recommendations` after index resolution: the `(corpus index,
score)` pairs underlying the returned dictionaries, in output order. -/
def selectPairs (row : List α) (corpus : List Course) (idx : ℕ)
    (topN : ℕ) (minScore : α) (excl : Bool) : List (ℕ × α) :=
  recLoop corpus (corpus.getD idx default).category minScore excl topN []
    (simScoresSorted row idx)

/-- Lines 383-388: `np.argsort(sim_scores)[::-1]` — stable ascending
argsort, then reversed — paired with each index's score. -/
def sortedIdxDesc (row : List α) : List (ℕ × α) :=
  (stableSortAscBy Prod.snd row.enum).reverse

/-- `get_recommendations_for_text` after vectorizing: the `(corpus index,
score)` pairs underlying the returned dictionaries, in output order
(no self-exclusion and no category filter). -/
def selectTextPairs (row : List α) (topN : ℕ) (minScore : α) :
    List (ℕ × α) :=
  recLoop [] none minScore false topN [] (sortedIdxDesc row)

/-- The fields of a returned recommendation dictionary that the engine's
contract constrains (`id`, `category`, `similarity_score`); the remaining
entries are display passthrough of the same course row. -/
structure RecOut (α : Type) where
  id : String
  category : Option String
  score : α
deriving DecidableEq

/-- Build the output dictionaries from the selected pairs
(`courses_df.iloc[course_idx]`, lines 308 and 319-341). -/
def mkRecs (corpus : List Course) (ps : List (ℕ × α)) : List (RecOut α) :=
  ps.map fun p =>
    ⟨(corpus.getD p.1 default).id, (corpus.getD p.1 default).category, p.2⟩

/-- The full result list of `get_recommendations`, given the similarity
row of the query course. -/
def getRecsList (row : List α) (corpus : List Course) (idx : ℕ)
    (topN : ℕ) (minScore : α) (excl : Bool) : List (RecOut α) :=
  mkRecs corpus (selectPairs row corpus idx topN minScore excl)

/-- The full result list of `get_recommendations_for_text`, given the
query-to-document similarity row. -/
def getTextList (row : List α) (corpus : List Course) (topN : ℕ)
    (minScore : α) : List (RecOut α) :=
  mkRecs corpus (selectTextPairs row topN minScore)

/-- Ranking order claimed in the spec: scores descending, ties broken by
ascending corpus index. -/
def rankTieAsc (a b : ℕ × α) : Prop :=
  b.2 < a.2 ∨ (a.2 = b.2 ∧ a.1 < b.1)

/-- Ranking order actually produced by the text query: scores
descending, ties broken by descending corpus index. -/
def rankTieDesc (a b : ℕ × α) : Prop :=
  b.2 < a.2 ∨ (a.2 = b.2 ∧ b.1 < a.1)

instance (a b : ℕ × α) : Decidable (rankTieAsc a b) := by
  unfold rankTieAsc; infer_instance

instance (a b : ℕ × α) : Decidable (rankTieDesc a b) := by
  unfold rankTieDesc; infer_instance

end Selection

/-! ## TF-IDF weights and cosine similarity (over `ℝ`)

`sublinear_tf=True` and `smooth_idf=True` give the weight
`(1 + ln tf) * (ln((1+N)/(1+df)) + 1)` for a present term and `0` for an
absent one.  `TfidfVectorizer` L2-normalizes each document row (a zero
row stays zero), and `linear_kernel` / `cosine_similarity` then take dot
products, so an entry of `cosine_sim` equals
`⟨u,v⟩ / (‖u‖·‖v‖)` over the unnormalized weight vectors, with sklearn's
zero-row convention matching Lean's `x / 0 = 0`. -/

/-- The TF-IDF weight of a term with corpus size `n`, term frequency
`tf` and document frequency `df`. -/
noncomputable def tfidfWeight (n tf df : ℕ) : ℝ :=
  if tf = 0 then 0
  else (1 + Real.log tf) * (Real.log ((1 + n) / (1 + df)) + 1)

/-- The (unnormalized) weight of term `t` in the document of course `c`,
for a corpus `cs`. -/
noncomputable def docWeight (cs : List Course) (c : Course) (t : String) : ℝ :=
  tfidfWeight cs.length (tfC c t) (dfC cs t)

/-- Dot product of two course documents' weight vectors over the fitted
vocabulary. -/
noncomputable def dotW (cs : List Course) (a b : Course) : ℝ :=
  ((vocabulary cs).map fun t => docWeight cs a t * docWeight cs b t).sum

/-- Cosine similarity of two course documents (an entry of
`cosine_sim = linear_kernel(tfidf_matrix, tfidf_matrix)`, line 227). -/
noncomputable def cosSim (cs : List Course) (a b : Course) : ℝ :=
  dotW cs a b / (Real.sqrt (dotW cs a a) * Real.sqrt (dotW cs b b))

/-- `cosine_sim[i][j]` of the fitted engine. -/
noncomputable def simMat (cs : List Course) (i j : ℕ) : ℝ :=
  cosSim cs (cs.getD i default) (cs.getD j default)

/-- `cosine_sim[idx]`: the similarity row of the course at `idx`
(line 289). -/
noncomputable def cosRow (cs : List Course) (idx : ℕ) : List ℝ :=
  cs.map fun c => cosSim cs (cs.getD idx default) c

/-- Term frequency of `t` in a free-text query. -/
def qtf (q : String) (t : String) : Nat := (queryTerms q).count t

/-- `transform` weight of term `t` for the query: same fitted
vocabulary, document frequencies and IDF weights; an out-of-vocabulary
query term contributes to no vocabulary coordinate. -/
noncomputable def queryWeight (cs : List Course) (q : String) (t : String) : ℝ :=
  tfidfWeight cs.length (qtf q t) (dfC cs t)

/-- Dot product of the query vector with a course document. -/
noncomputable def dotQ (cs : List Course) (q : String) (c : Course) : ℝ :=
  ((vocabulary cs).map fun t => queryWeight cs q t * docWeight cs c t).sum

/-- Squared norm of the query vector. -/
noncomputable def dotQQ (cs : List Course) (q : String) : ℝ :=
  ((vocabulary cs).map fun t => queryWeight cs q t * queryWeight cs q t).sum

/-- One entry of `cosine_similarity(query_vector, tfidf_matrix)`
(line 381). -/
noncomputable def textSim (cs : List Course) (q : String) (c : Course) : ℝ :=
  dotQ cs q c / (Real.sqrt (dotQQ cs q) * Real.sqrt (dotW cs c c))

/-- The flattened similarity row of a free-text query (line 381). -/
noncomputable def textRow (cs : List Course) (q : String) : List ℝ :=
  cs.map fun c => textSim cs q c

/-! ## The stateful engine

`EngineState` models the mutable attributes of the singleton
`CourseRecommender`: `corpus` is `courses_df` (with `course_indices`,
which is always derived from it), `vec` is the fitted vectorizer
(`some cs` = fitted on corpus `cs`; `none` = absent or unfitted), and
`matFit` is the corpus snapshot from which `tfidf_matrix` and
`cosine_sim` were computed (`none` = the matrices are `None`).  On a
successfully fitted engine `corpus`, `vec` and `matFit` coincide.
A raised Python exception is an `Except.error`; the mutations performed
before the raise persist in the returned state, exactly as on the
mutable Python object. -/

/-- The errors the engine can raise: a failing `load_data` database read,
a `ValueError` from `fit_transform` (empty vocabulary after pruning), and
the `ValueError` of line 283 for an unknown course id. -/
inductive EngErr where
  | loadFail : EngErr
  | fitFail : EngErr
  | notFound : EngErr
deriving DecidableEq

/-- The mutable state of a `CourseRecommender` instance. -/
structure EngineState where
  corpus : Option (List Course) := none
  vec : Option (List Course) := none
  matFit : Option (List Course) := none
  isFitted : Bool := false
deriving DecidableEq

/-- The freshly constructed engine (`__init__`). -/
def initState : EngineState := {}

/-- The vectorize-and-fit part of `CourseRecommender.fit` (lines
181-232) on a loaded corpus `cs`: an empty corpus marks the engine
unfitted and returns normally; otherwise a fresh vectorizer is installed
and fitted — when every candidate term is pruned away, `fit_transform`
raises `ValueError` and the previous matrices and fitted flag survive
unchanged (only the vectorizer was replaced); on success all derived
state is rebuilt from `cs`. -/
def fitCore (cs : List Course) (s1 : EngineState) :
    EngineState × Except EngErr Unit :=
  if cs.isEmpty then ({ s1 with isFitted := false }, .ok ())
  else if (vocabulary cs).isEmpty then
    ({ s1 with vec := none }, .error .fitFail)
  else
    ({ s1 with vec := some cs, matFit := some cs, isFitted := true }, .ok ())

/-- `CourseRecommender.fit` (lines 163-236).  `load` is the outcome of
the `load_data` database read.  Reload when `courses_df` is `None` or
empty (a failing read leaves the state untouched and re-raises), then
run the vectorize-and-fit stage on the loaded corpus. -/
def fitE (load : Except Unit (List Course)) (s : EngineState) :
    EngineState × Except EngErr Unit :=
  match s.corpus with
  | some df =>
    if df.isEmpty then
      match load with
      | .error _ => (s, .error .loadFail)
      | .ok cs => fitCore cs { s with corpus := some cs }
    else fitCore df s
  | none =>
    match load with
    | .error _ => (s, .error .loadFail)
    | .ok cs => fitCore cs { s with corpus := some cs }

/-- `CourseRecommender.refresh` (lines 481-495): clear the fitted flag,
the corpus and both matrices, then refit. -/
def refreshE (load : Except Unit (List Course)) (s : EngineState) :
    EngineState × Except EngErr Unit :=
  fitE load { s with corpus := none, matFit := none, isFitted := false }

/-- `CourseRecommender.get_recommendations` (lines 238-348): fit lazily
when unfitted (a raise in `fit` propagates), return `[]` when the engine
still is not fitted, raise `ValueError` when the id is not in
`course_indices`, and otherwise rank the precomputed similarity row. -/
noncomputable def getRecsE (load : Except Unit (List Course))
    (s : EngineState) (cid : String) (topN : ℕ) (excl : Bool)
    (minScore : ℝ) : EngineState × Except EngErr (List (RecOut ℝ)) :=
  let fr := if s.isFitted then (s, Except.ok ()) else fitE load s
  match fr with
  | (s1, .error e) => (s1, .error e)
  | (s1, .ok _) =>
    if !s1.isFitted then (s1, .ok [])
    else
      let corpus := s1.corpus.getD []
      match corpus.findIdx? (fun c => c.id = cid) with
      | none => (s1, .error .notFound)
      | some idx =>
        let mat := s1.matFit.getD []
        (s1, .ok (getRecsList (cosRow mat idx) corpus idx topN minScore excl))

/-- `CourseRecommender.get_recommendations_for_text` (lines 350-431):
fit lazily when unfitted — a raise in `fit` happens *before* the
`try`/`except` block and propagates to the caller — return `[]` when
still unfitted or the vectorizer is absent, and otherwise rank the
query-to-document similarities (the `try` body; its internal failures
are caught and map to `[]`, and the embedded body is total).  On a
fitted engine `vec` and `matFit` coincide, and the docs matrix is used
for both the vocabulary and the rows. -/
noncomputable def getTextE (load : Except Unit (List Course))
    (s : EngineState) (q : String) (topN : ℕ) (minScore : ℝ) :
    EngineState × Except EngErr (List (RecOut ℝ)) :=
  let fr := if s.isFitted then (s, Except.ok ()) else fitE load s
  match fr with
  | (s1, .error e) => (s1, .error e)
  | (s1, .ok _) =>
    if !s1.isFitted || s1.vec.isNone then (s1, .ok [])
    else
      let mat := s1.matFit.getD []
      (s1, .ok (getTextList (textRow mat q) mat topN minScore))

/-! ## Lemmas about the sorting stage -/

section SortLemmas

variable {α β : Type} [LinearOrder α]

theorem perm_insDescBy (key : β → α) (x : β) :
    ∀ l : List β, (insDescBy key x l).Perm (x :: l)
  | [] => List.Perm.refl _
  | q :: t => by
    unfold insDescBy
    by_cases h : key q ≤ key x
    · rw [if_pos h]
    · rw [if_neg h]
      exact ((perm_insDescBy key x t).cons q).trans (List.Perm.swap x q t)

theorem perm_stableSortDescBy (key : β → α) :
    ∀ l : List β, (stableSortDescBy key l).Perm l
  | [] => List.Perm.refl _
  | x :: xs =>
    (perm_insDescBy key x (stableSortDescBy key xs)).trans
      ((perm_stableSortDescBy key xs).cons x)

theorem perm_insAscBy (key : β → α) (x : β) :
    ∀ l : List β, (insAscBy key x l).Perm (x :: l)
  | [] => List.Perm.refl _
  | q :: t => by
    unfold insAscBy
    by_cases h : key x ≤ key q
    · rw [if_pos h]
    · rw [if_neg h]
      exact ((perm_insAscBy key x t).cons q).trans (List.Perm.swap x q t)

theorem perm_stableSortAscBy (key : β → α) :
    ∀ l : List β, (stableSortAscBy key l).Perm l
  | [] => List.Perm.refl _
  | x :: xs =>
    (perm_insAscBy key x (stableSortAscBy key xs)).trans
      ((perm_stableSortAscBy key xs).cons x)

/-- The ascending lexicographic order (score ascending, ties by
ascending index) produced by the stable ascending argsort. -/
def ascLex (a b : ℕ × α) : Prop :=
  a.2 < b.2 ∨ (a.2 = b.2 ∧ a.1 < b.1)

theorem rankTieAsc_trans {a b c : ℕ × α}
    (h1 : rankTieAsc a b) (h2 : rankTieAsc b c) : rankTieAsc a c := by
  rcases h1 with h1 | ⟨e1, l1⟩ <;> rcases h2 with h2 | ⟨e2, l2⟩
  · exact Or.inl (h2.trans h1)
  · exact Or.inl (by rw [e2] at h1; exact h1)
  · exact Or.inl (by rw [e1]; exact h2)
  · exact Or.inr ⟨e1.trans e2, l1.trans l2⟩

theorem ascLex_trans {a b c : ℕ × α}
    (h1 : ascLex a b) (h2 : ascLex b c) : ascLex a c := by
  rcases h1 with h1 | ⟨e1, l1⟩ <;> rcases h2 with h2 | ⟨e2, l2⟩
  · exact Or.inl (h1.trans h2)
  · exact Or.inl (by rw [← e2]; exact h1)
  · exact Or.inl (by rw [e1]; exact h2)
  · exact Or.inr ⟨e1.trans e2, l1.trans l2⟩

theorem pairwise_insDescBy_snd (x : ℕ × α) :
    ∀ l : List (ℕ × α), l.Pairwise rankTieAsc →
      (∀ q ∈ l, x.2 = q.2 → x.1 < q.1) →
      (insDescBy Prod.snd x l).Pairwise rankTieAsc
  | [], _, _ => List.pairwise_singleton _ _
  | q :: t, hp, hx => by
    rw [List.pairwise_cons] at hp
    obtain ⟨hq, ht⟩ := hp
    unfold insDescBy
    by_cases hle : Prod.snd q ≤ Prod.snd x
    · rw [if_pos hle]
      have hxq : rankTieAsc x q := by
        rcases lt_or_eq_of_le hle with h | h
        · exact Or.inl h
        · exact Or.inr ⟨h.symm, hx q (List.mem_cons_self q t) h.symm⟩
      refine List.Pairwise.cons ?_ (List.Pairwise.cons hq ht)
      intro b hb
      rcases List.mem_cons.mp hb with rfl | hb
      · exact hxq
      · exact rankTieAsc_trans hxq (hq b hb)
    · rw [if_neg hle]
      push_neg at hle
      refine List.Pairwise.cons ?_
        (pairwise_insDescBy_snd x t ht
          (fun r hr he => hx r (List.mem_cons_of_mem q hr) he))
      intro b hb
      rcases List.mem_cons.mp ((perm_insDescBy Prod.snd x t).mem_iff.mp hb)
        with rfl | hb'
      · exact Or.inl hle
      · exact hq b hb'

theorem pairwise_stableSortDescBy_snd :
    ∀ l : List (ℕ × α), l.Pairwise (fun a b => a.1 < b.1) →
      (stableSortDescBy Prod.snd l).Pairwise rankTieAsc
  | [], _ => List.Pairwise.nil
  | x :: xs, h => by
    rw [List.pairwise_cons] at h
    obtain ⟨hx, hxs⟩ := h
    unfold stableSortDescBy
    refine pairwise_insDescBy_snd x _ (pairwise_stableSortDescBy_snd xs hxs) ?_
    intro q hq _
    exact hx q ((perm_stableSortDescBy Prod.snd xs).mem_iff.mp hq)

theorem pairwise_insAscBy_snd (x : ℕ × α) :
    ∀ l : List (ℕ × α), l.Pairwise ascLex →
      (∀ q ∈ l, x.2 = q.2 → x.1 < q.1) →
      (insAscBy Prod.snd x l).Pairwise ascLex
  | [], _, _ => List.pairwise_singleton _ _
  | q :: t, hp, hx => by
    rw [List.pairwise_cons] at hp
    obtain ⟨hq, ht⟩ := hp
    unfold insAscBy
    by_cases hle : Prod.snd x ≤ Prod.snd q
    · rw [if_pos hle]
      have hxq : ascLex x q := by
        rcases lt_or_eq_of_le hle with h | h
        · exact Or.inl h
        · exact Or.inr ⟨h, hx q (List.mem_cons_self q t) h⟩
      refine List.Pairwise.cons ?_ (List.Pairwise.cons hq ht)
      intro b hb
      rcases List.mem_cons.mp hb with rfl | hb
      · exact hxq
      · exact ascLex_trans hxq (hq b hb)
    · rw [if_neg hle]
      push_neg at hle
      refine List.Pairwise.cons ?_
        (pairwise_insAscBy_snd x t ht
          (fun r hr he => hx r (List.mem_cons_of_mem q hr) he))
      intro b hb
      rcases List.mem_cons.mp ((perm_insAscBy Prod.snd x t).mem_iff.mp hb)
        with rfl | hb'
      · exact Or.inl hle
      · exact hq b hb'

theorem pairwise_stableSortAscBy_snd :
    ∀ l : List (ℕ × α), l.Pairwise (fun a b => a.1 < b.1) →
      (stableSortAscBy Prod.snd l).Pairwise ascLex
  | [], _ => List.Pairwise.nil
  | x :: xs, h => by
    rw [List.pairwise_cons] at h
    obtain ⟨hx, hxs⟩ := h
    unfold stableSortAscBy
    refine pairwise_insAscBy_snd x _ (pairwise_stableSortAscBy_snd xs hxs) ?_
    intro q hq _
    exact hx q ((perm_stableSortAscBy Prod.snd xs).mem_iff.mp hq)

theorem le_fst_of_mem_enumFrom {γ : Type} :
    ∀ {n : ℕ} {l : List γ} (p : ℕ × γ), p ∈ List.enumFrom n l → n ≤ p.1
  | _, [], _, h => absurd h (List.not_mem_nil _)
  | n, x :: xs, p, h => by
    rcases List.mem_cons.mp h with rfl | h
    · exact le_refl n
    · exact (Nat.le_succ n).trans (le_fst_of_mem_enumFrom p h)

theorem pairwise_fst_lt_enumFrom {γ : Type} :
    ∀ (n : ℕ) (l : List γ),
      (List.enumFrom n l).Pairwise (fun a b => a.1 < b.1)
  | _, [] => List.Pairwise.nil
  | n, x :: xs => by
    refine List.Pairwise.cons ?_ (pairwise_fst_lt_enumFrom (n + 1) xs)
    intro b hb
    exact Nat.lt_of_succ_le (le_fst_of_mem_enumFrom b hb)

theorem pairwise_fst_lt_enum {γ : Type} (l : List γ) :
    l.enum.Pairwise (fun a b => a.1 < b.1) :=
  pairwise_fst_lt_enumFrom 0 l

end SortLemmas

/-! ## The loop as filter-then-take -/

section LoopLemmas

variable {α : Type} [LinearOrder α]

theorem recLoop_eq (corpus : List Course) (inputCat : Option String)
    (minScore : α) (excl : Bool) (topN : ℕ) :
    ∀ (l acc : List (ℕ × α)), acc.length < max 1 topN →
      recLoop corpus inputCat minScore excl topN acc l =
        acc ++ (l.filter (eligibleB corpus inputCat minScore excl)).take
          (max 1 topN - acc.length)
  | [], acc, _ => by simp [recLoop]
  | p :: rest, acc, h => by
    unfold recLoop
    by_cases h1 : p.2 < minScore
    · rw [if_pos h1, recLoop_eq corpus inputCat minScore excl topN rest acc h]
      have he : eligibleB corpus inputCat minScore excl p = false := by
        simp [eligibleB, h1]
      rw [List.filter_cons, if_neg (by simp [he])]
    · rw [if_neg h1]
      by_cases h2 :
          (excl && decide ((corpus.getD p.1 default).category = inputCat)) = true
      · rw [if_pos h2,
          recLoop_eq corpus inputCat minScore excl topN rest acc h]
        have he : eligibleB corpus inputCat minScore excl p = false := by
          simp only [eligibleB, h2]
          simp
        rw [List.filter_cons, if_neg (by simp [he])]
      · have he : eligibleB corpus inputCat minScore excl p = true := by
          simp only [eligibleB, Bool.and_eq_true, Bool.not_eq_true',
            decide_eq_false_iff_not]
          exact ⟨by simpa using h1, by simpa using h2⟩
        rw [if_neg (by simpa using h2)]
        by_cases h3 : topN ≤ (acc ++ [p]).length
        · rw [if_pos h3, List.filter_cons, if_pos he]
          have hM : max 1 topN - acc.length = 1 := by
            simp only [List.length_append, List.length_singleton] at h3
            omega
          rw [hM, List.take_succ_cons, List.take_zero]
        · rw [if_neg h3]
          simp only [List.length_append, List.length_singleton] at h3
          have hlt : (acc ++ [p]).length < max 1 topN := by
            simp only [List.length_append, List.length_singleton]
            omega
          rw [recLoop_eq corpus inputCat minScore excl topN rest (acc ++ [p]) hlt,
            List.filter_cons, if_pos he]
          have hM : max 1 topN - acc.length =
              (max 1 topN - (acc ++ [p]).length) + 1 := by
            simp only [List.length_append, List.length_singleton]
            omega
          rw [hM, List.take_succ_cons, List.append_assoc]
          rfl

theorem selectPairs_eq (row : List α) (corpus : List Course) (idx : ℕ)
    (topN : ℕ) (minScore : α) (excl : Bool) :
    selectPairs row corpus idx topN minScore excl =
      ((simScoresSorted row idx).filter
        (eligibleB corpus (corpus.getD idx default).category minScore excl)).take
        (max 1 topN) := by
  unfold selectPairs
  rw [recLoop_eq corpus _ minScore excl topN _ [] (by positivity)]
  simp

theorem selectTextPairs_eq (row : List α) (topN : ℕ) (minScore : α) :
    selectTextPairs row topN minScore =
      ((sortedIdxDesc row).filter (eligibleB [] none minScore false)).take
        (max 1 topN) := by
  unfold selectTextPairs
  rw [recLoop_eq [] none minScore false topN _ [] (by positivity)]
  simp

end LoopLemmas

section SelectionFacts

variable {α : Type} [LinearOrder α]

theorem pairwise_simScoresSorted (row : List α) (idx : ℕ) :
    (simScoresSorted row idx).Pairwise rankTieAsc :=
  (pairwise_stableSortDescBy_snd row.enum (pairwise_fst_lt_enum row)).filter _

theorem pairwise_sortedIdxDesc (row : List α) :
    (sortedIdxDesc row).Pairwise rankTieDesc := by
  unfold sortedIdxDesc
  rw [List.pairwise_reverse]
  refine (pairwise_stableSortAscBy_snd row.enum (pairwise_fst_lt_enum row)).imp ?_
  intro a b hab
  rcases hab with h | ⟨e, l⟩
  · exact Or.inl h
  · exact Or.inr ⟨e.symm, l⟩

theorem mem_selectPairs {p : ℕ × α} (row : List α) (corpus : List Course)
    (idx topN : ℕ) (minScore : α) (excl : Bool)
    (hp : p ∈ selectPairs row corpus idx topN minScore excl) :
    p ∈ row.enum ∧ p.1 ≠ idx ∧
      eligibleB corpus (corpus.getD idx default).category minScore excl p
        = true := by
  rw [selectPairs_eq] at hp
  have hp1 := (List.take_sublist _ _).subset hp
  rw [List.mem_filter] at hp1
  obtain ⟨hp2, hel⟩ := hp1
  unfold simScoresSorted at hp2
  rw [List.mem_filter] at hp2
  obtain ⟨hp3, hne⟩ := hp2
  refine ⟨(perm_stableSortDescBy Prod.snd row.enum).mem_iff.mp hp3, ?_, hel⟩
  simpa using hne

theorem mem_selectTextPairs {p : ℕ × α} (row : List α) (topN : ℕ)
    (minScore : α) (hp : p ∈ selectTextPairs row topN minScore) :
    p ∈ row.enum ∧ eligibleB [] none minScore false p = true := by
  rw [selectTextPairs_eq] at hp
  have hp1 := (List.take_sublist _ _).subset hp
  rw [List.mem_filter] at hp1
  obtain ⟨hp2, hel⟩ := hp1
  unfold sortedIdxDesc at hp2
  rw [List.mem_reverse] at hp2
  exact ⟨(perm_stableSortAscBy Prod.snd row.enum).mem_iff.mp hp2, hel⟩

/-- The number of eligible results for a by-course query: entries of the
similarity row other than the query course itself whose score reaches
`min_score` and which pass the category filter. -/
def eligibleCount (row : List α) (corpus : List Course) (idx : ℕ)
    (minScore : α) (excl : Bool) : ℕ :=
  ((row.enum.filter fun p => decide (p.1 ≠ idx)).filter
    (eligibleB corpus (corpus.getD idx default).category minScore excl)).length

theorem selectPairs_length (row : List α) (corpus : List Course)
    (idx topN : ℕ) (minScore : α) (excl : Bool) :
    (selectPairs row corpus idx topN minScore excl).length =
      min (max 1 topN) (eligibleCount row corpus idx minScore excl) := by
  rw [selectPairs_eq, List.length_take]
  congr 1
  exact List.Perm.length_eq
    (((perm_stableSortDescBy Prod.snd row.enum).filter _).filter _)

end SelectionFacts

/-! ## Concrete data used in witnesses and counterexamples -/

/-- Concrete course `a` (category `x`). -/
def courseA : Course :=
  { id := "a", title := some "pandas", category := some "x" }

/-- Concrete course `b` (category `y`). -/
def courseB : Course :=
  { id := "b", title := some "numpy", category := some "y" }

/-- A two-course corpus with distinct ids and categories. -/
def exCorpus : List Course := [courseA, courseB]

/-! ## Claims C3, C4, C6 — the ranking stage -/

/-- Claim C3, counterexample: in `get_recommendations_for_text` the
ranked index list is `np.argsort(scores)[::-1]`; reversing the
(stable) ascending argsort puts equal-score documents in *descending*
corpus order, so on the all-tied row `[0, 0]` the output order is index
1 before index 0, not the claimed ascending load order. -/
theorem c3_counterexample :
    ¬ (selectTextPairs (α := ℕ) [0, 0] 10 0).Pairwise rankTieAsc := by
  decide

/-- Claim C3, amended: both query paths return results sorted by
descending similarity score; score ties are broken by ascending corpus
index in `get_recommendations` (Python's `sorted` is stable), but by
*descending* corpus index in `get_recommendations_for_text` (the
reversed ascending argsort). -/
theorem c3_amended {α : Type} [LinearOrder α] (row : List α)
    (corpus : List Course) (idx topN : ℕ) (minScore : α) (excl : Bool) :
    (selectPairs row corpus idx topN minScore excl).Pairwise rankTieAsc ∧
      (selectTextPairs row topN minScore).Pairwise rankTieDesc := by
  constructor
  · rw [selectPairs_eq]
    exact ((pairwise_simScoresSorted row idx).filter _).sublist
      (List.take_sublist _ _) |>.imp id |>.sublist (List.Sublist.refl _)
  · rw [selectTextPairs_eq]
    exact ((pairwise_sortedIdxDesc row).filter _).sublist
      (List.take_sublist _ _) |>.imp id |>.sublist (List.Sublist.refl _)

/-- Claim C4, counterexample: with `top_n = 0` the loop appends the first
eligible result *before* testing `len(recommendations) >= top_n`, so it
returns one result instead of the claimed `min(0, eligible) = 0`. -/
theorem c4_counterexample :
    (selectPairs (α := ℕ) [1, 0] exCorpus 0 0 0 false).length ≠
      min 0 (eligibleCount (α := ℕ) [1, 0] exCorpus 0 0 false) := by
  decide

/-- Claim C4, amended: for every query over a fitted engine the output
length of `get_recommendations` is `min(max(1, top_n), count of eligible
results)` — which equals the claimed `min(top_n, eligible)` for every
`top_n ≥ 1`, while `top_n = 0` still yields up to one result because the
truncation test runs only after an append. -/
theorem c4_amended {α : Type} [LinearOrder α] (row : List α)
    (corpus : List Course) (idx topN : ℕ) (minScore : α) (excl : Bool) :
    (selectPairs row corpus idx topN minScore excl).length =
      min (max 1 topN) (eligibleCount row corpus idx minScore excl) :=
  selectPairs_length row corpus idx topN minScore excl

/-- Claim C6, confirmed: `get_recommendations(X, ...)` never returns X
itself (its row index is filtered out at line 295, and distinct indices
carry distinct ids when the corpus ids are unique), and with
`exclude_same_category=true` no returned course has X's category (the
`continue` at lines 310-312). -/
theorem c6_exclusion {α : Type} [LinearOrder α] (row : List α)
    (corpus : List Course) (idx topN : ℕ) (minScore : α) (excl : Bool)
    (hlen : row.length = corpus.length) (hidx : idx < corpus.length)
    (hnd : (corpus.map Course.id).Nodup) :
    ∀ r ∈ getRecsList row corpus idx topN minScore excl,
      r.id ≠ (corpus.getD idx default).id ∧
        (excl = true → r.category ≠ (corpus.getD idx default).category) := by
  intro r hr
  unfold getRecsList mkRecs at hr
  rw [List.mem_map] at hr
  obtain ⟨p, hp, rfl⟩ := hr
  obtain ⟨henum, hne, hel⟩ :=
    mem_selectPairs row corpus idx topN minScore excl hp
  obtain ⟨i, sc⟩ := p
  have hi : i < corpus.length := by
    rw [← hlen]; exact (List.mem_enum henum).1
  constructor
  · simp only
    rw [List.getD_eq_getElem corpus default hi,
      List.getD_eq_getElem corpus default hidx]
    intro hid
    apply hne
    have hmi : i < (corpus.map Course.id).length := by simpa using hi
    have hmx : idx < (corpus.map Course.id).length := by simpa using hidx
    have h1 : (corpus.map Course.id).get ⟨i, hmi⟩ =
        (corpus.map Course.id).get ⟨idx, hmx⟩ := by
      rw [List.get_eq_getElem, List.get_eq_getElem, List.getElem_map,
        List.getElem_map]
      exact hid
    have h2 := (List.Nodup.get_inj_iff hnd).mp h1
    exact congrArg Fin.val h2
  · intro hexcl
    simp only [eligibleB, hexcl, Bool.true_and, Bool.and_eq_true,
      Bool.not_eq_true', decide_eq_false_iff_not] at hel
    exact hel.2

/-- Witness for C6 at a concrete corpus: with corpus `[a, b]`, row
`[1, 0]`, query course `a` and the category filter on, the returned
course `b` is neither `a` nor of `a`'s category. -/
theorem c6_exclusion_witness :
    (⟨"b", some "y", 0⟩ : RecOut ℕ).id ≠
        ((exCorpus.getD 0 default).id) ∧
      (true = true →
        (⟨"b", some "y", 0⟩ : RecOut ℕ).category ≠
          (exCorpus.getD 0 default).category) :=
  c6_exclusion [1, 0] exCorpus 0 10 0 true (by decide) (by decide)
    (by decide) ⟨"b", some "y", 0⟩ (by decide)

/-! ## Facts about the TF-IDF weights -/

theorem dfC_le_length (cs : List Course) (t : String) :
    dfC cs t ≤ cs.length :=
  List.countP_le_length _

theorem tfidfWeight_nonneg (n tf df : ℕ) (hdf : df ≤ n) :
    0 ≤ tfidfWeight n tf df := by
  unfold tfidfWeight
  by_cases h : tf = 0
  · rw [if_pos h]
  · rw [if_neg h]
    have h1 : (0 : ℝ) ≤ 1 + Real.log tf := by
      have : (0 : ℝ) ≤ Real.log tf := by
        refine Real.log_nonneg ?_
        exact_mod_cast Nat.one_le_iff_ne_zero.mpr h
      linarith
    have h2 : (0 : ℝ) ≤ Real.log ((1 + n) / (1 + df)) + 1 := by
      have : (0 : ℝ) ≤ Real.log ((1 + n) / (1 + df)) := by
        refine Real.log_nonneg ?_
        rw [le_div_iff₀ (by positivity)]
        have : (df : ℝ) ≤ n := by exact_mod_cast hdf
        linarith
      linarith
    exact mul_nonneg h1 h2

theorem one_le_tfidfWeight (n tf df : ℕ) (htf : 1 ≤ tf) (hdf : df ≤ n) :
    1 ≤ tfidfWeight n tf df := by
  unfold tfidfWeight
  rw [if_neg (by omega)]
  have h1 : (1 : ℝ) ≤ 1 + Real.log tf := by
    have : (0 : ℝ) ≤ Real.log tf := by
      refine Real.log_nonneg ?_
      exact_mod_cast htf
    linarith
  have h2 : (1 : ℝ) ≤ Real.log ((1 + n) / (1 + df)) + 1 := by
    have : (0 : ℝ) ≤ Real.log ((1 + n) / (1 + df)) := by
      refine Real.log_nonneg ?_
      rw [le_div_iff₀ (by positivity)]
      have : (df : ℝ) ≤ n := by exact_mod_cast hdf
      linarith
    linarith
  calc (1 : ℝ) = 1 * 1 := (one_mul 1).symm
    _ ≤ (1 + Real.log tf) * (Real.log ((1 + n) / (1 + df)) + 1) :=
      mul_le_mul h1 h2 zero_le_one (le_trans zero_le_one h1)

theorem tfidfWeight_of_tf_zero (n df : ℕ) : tfidfWeight n 0 df = 0 := by
  unfold tfidfWeight
  rw [if_pos rfl]

theorem sum_pos_of_mem_pos {x : ℝ} (hxp : 0 < x) :
    ∀ l : List ℝ, (∀ y ∈ l, 0 ≤ y) → x ∈ l → 0 < l.sum := by
  intro l
  induction l with
  | nil => intro _ hx; exact absurd hx (List.not_mem_nil x)
  | cons a t ih =>
    intro h0 hx
    rw [List.sum_cons]
    rcases List.mem_cons.mp hx with rfl | hx'
    · exact add_pos_of_pos_of_nonneg hxp
        (List.sum_nonneg fun y hy => h0 y (List.mem_cons_of_mem _ hy))
    · exact add_pos_of_nonneg_of_pos (h0 a (List.mem_cons_self _ _))
        (ih (fun y hy => h0 y (List.mem_cons_of_mem _ hy)) hx')

theorem dotW_comm (cs : List Course) (a b : Course) :
    dotW cs a b = dotW cs b a := by
  unfold dotW
  exact congrArg List.sum (List.map_congr_left fun t _ => mul_comm _ _)

theorem cosSim_comm (cs : List Course) (a b : Course) :
    cosSim cs a b = cosSim cs b a := by
  unfold cosSim
  rw [dotW_comm cs a b, mul_comm]

theorem dotW_self_pos (cs : List Course) (c : Course)
    (h : ∃ t ∈ vocabulary cs, 1 ≤ tfC c t) : 0 < dotW cs c c := by
  obtain ⟨t0, ht0, htf⟩ := h
  unfold dotW
  have h1 : 1 ≤ docWeight cs c t0 :=
    one_le_tfidfWeight _ _ _ htf (dfC_le_length cs t0)
  have hpos : (0 : ℝ) < docWeight cs c t0 * docWeight cs c t0 :=
    mul_pos (lt_of_lt_of_le one_pos h1) (lt_of_lt_of_le one_pos h1)
  refine sum_pos_of_mem_pos hpos _ ?_
    (List.mem_map_of_mem (fun t => docWeight cs c t * docWeight cs c t) ht0)
  intro x hx
  rw [List.mem_map] at hx
  obtain ⟨t, _, rfl⟩ := hx
  exact mul_self_nonneg _

theorem dotW_self_zero (cs : List Course) (c : Course)
    (h : ∀ t ∈ vocabulary cs, tfC c t = 0) : dotW cs c c = 0 := by
  unfold dotW
  refine List.sum_eq_zero ?_
  intro x hx
  rw [List.mem_map] at hx
  obtain ⟨t, ht, rfl⟩ := hx
  unfold docWeight
  rw [h t ht, tfidfWeight_of_tf_zero]
  ring

theorem cosSim_self_one (cs : List Course) (c : Course)
    (h : ∃ t ∈ vocabulary cs, 1 ≤ tfC c t) : cosSim cs c c = 1 := by
  have hp := dotW_self_pos cs c h
  unfold cosSim
  rw [Real.mul_self_sqrt (le_of_lt hp)]
  exact div_self (ne_of_gt hp)

theorem cosSim_self_zero (cs : List Course) (c : Course)
    (h : ∀ t ∈ vocabulary cs, tfC c t = 0) : cosSim cs c c = 0 := by
  unfold cosSim
  rw [dotW_self_zero cs c h]
  exact zero_div _

/-- A course whose title tokenizes to nothing: `"c"` is a single-letter
run and the token pattern requires at least two letters. -/
def courseC1 : Course := { id := "q", title := some "c" }

/-- Course `p` with a real token. -/
def courseP : Course := { id := "p", title := some "python" }

/-- A corpus that fits successfully (non-empty vocabulary from course
`p`) but whose second document has an all-zero TF-IDF row. -/
def corpus2 : List Course := [courseP, courseC1]

/-! ## Claim C7 — similarity matrix shape -/

/-- Claim C7, counterexample: the fitted similarity matrix does not have
diagonal 1.0 at every index.  In the two-course corpus `[p, q]` where
`q`'s combined text `"c c c"` produces no tokens (single letters fail
the `[a-zA-Z]{2,}` pattern), `q`'s TF-IDF row is zero; sklearn leaves a
zero row unchanged under L2 normalization, so `cosine_sim[1][1] = 0`,
not `1.0`. -/
theorem c7_counterexample :
    (fitE (Except.ok corpus2) initState).1.isFitted = true ∧
      1 < corpus2.length ∧ simMat corpus2 1 1 ≠ 1 := by
  refine ⟨by decide, by decide, ?_⟩
  unfold simMat
  rw [cosSim_self_zero corpus2 (corpus2.getD 1 default) (by decide)]
  norm_num

/-- Claim C7, amended: the precomputed similarity matrix is symmetric;
its diagonal entry for a document holding at least one vocabulary term is
`1.0`, while a document with no vocabulary term (an all-zero TF-IDF row)
has diagonal entry `0`. -/
theorem c7_amended (cs : List Course) (i j : ℕ) :
    simMat cs i j = simMat cs j i ∧
      ((∃ t ∈ vocabulary cs, 1 ≤ tfC (cs.getD i default) t) →
        simMat cs i i = 1) ∧
      ((∀ t ∈ vocabulary cs, tfC (cs.getD i default) t = 0) →
        simMat cs i i = 0) :=
  ⟨cosSim_comm cs _ _,
    fun h => cosSim_self_one cs _ h,
    fun h => cosSim_self_zero cs _ h⟩

/-- Witness for C7 on the concrete corpus `[p, q]`: symmetry of the
off-diagonal pair and diagonal 1.0 for document `p`, which holds the
vocabulary term `"python"`. -/
theorem c7_amended_witness :
    simMat corpus2 0 1 = simMat corpus2 1 0 ∧ simMat corpus2 0 0 = 1 :=
  ⟨(c7_amended corpus2 0 1).1,
    (c7_amended corpus2 0 0).2.1 ⟨"python", by decide, by decide⟩⟩

/-! ## Claim C8 — out-of-vocabulary free-text queries -/

/-- Claim C8, confirmed: a free-text query all of whose terms are outside
the fitted vocabulary is not an error (the embedded transform is total:
out-of-vocabulary terms simply contribute to no coordinate, giving a
zero query vector, and sklearn's `cosine_similarity` maps the zero
vector to all-zero similarities — Lean's `x / 0 = 0` matches its
zero-norm convention), and every similarity score the call returns is
`0`. -/
theorem c8_oov (cs : List Course) (q : String) (topN : ℕ) (minScore : ℝ)
    (hoov : ∀ t ∈ queryTerms q, t ∉ vocabulary cs) :
    ∀ p ∈ selectTextPairs (textRow cs q) topN minScore, p.2 = 0 := by
  have hq : ∀ t ∈ vocabulary cs, qtf q t = 0 := by
    intro t ht
    unfold qtf
    rw [List.count_eq_zero]
    intro hmem
    exact hoov t hmem ht
  have hrow : ∀ x ∈ textRow cs q, x = 0 := by
    intro x hx
    unfold textRow at hx
    rw [List.mem_map] at hx
    obtain ⟨c, _, rfl⟩ := hx
    unfold textSim
    have hdq : dotQ cs q c = 0 := by
      unfold dotQ
      refine List.sum_eq_zero ?_
      intro y hy
      rw [List.mem_map] at hy
      obtain ⟨t, ht, rfl⟩ := hy
      unfold queryWeight
      rw [hq t ht, tfidfWeight_of_tf_zero]
      ring
    rw [hdq]
    exact zero_div _
  intro p hp
  obtain ⟨henum, _⟩ :=
    mem_selectTextPairs (textRow cs q) topN minScore hp
  obtain ⟨i, sc⟩ := p
  obtain ⟨hi, hsc⟩ := List.mem_enum henum
  exact hrow sc (hsc ▸ List.getElem_mem hi)

/-- Witness for C8: the query `"zzzz"` has the single term `"zzzz"`,
which is outside the vocabulary of the concrete corpus `[p, q]`, and
every pair the text query returns carries score `0`. -/
theorem c8_oov_witness :
    (∀ t ∈ queryTerms "zzzz", t ∉ vocabulary corpus2) ∧
      ∀ p ∈ selectTextPairs (textRow corpus2 "zzzz") 10 (0 : ℝ), p.2 = 0 :=
  ⟨by decide, c8_oov corpus2 "zzzz" 10 0 (by decide)⟩

/-! ## Claims C1, C2, C9, C10 — the stateful engine -/

/-- A concrete engine successfully fitted on the one-course corpus
`[a]`. -/
def sFit : EngineState :=
  { corpus := some [courseA], vec := some [courseA],
    matFit := some [courseA], isFitted := true }

/-- Claim C1, counterexample: a query against an engine whose corpus is
empty does *not* raise — after the implicit `fit()` leaves the engine
unfitted, `get_recommendations` logs a warning and silently returns `[]`
(lines 273-275), exactly the behaviour the claim rules out. -/
theorem c1_counterexample :
    (getRecsE (Except.ok []) initState "x" 10 false 0).2 =
        Except.ok ([] : List (RecOut ℝ)) ∧
      ∀ e, (getRecsE (Except.ok []) initState "x" 10 false 0).2 ≠
        Except.error e := by
  have h0 : (getRecsE (Except.ok []) initState "x" 10 false 0).2 =
      Except.ok ([] : List (RecOut ℝ)) := rfl
  exact ⟨h0, fun e h => Except.noConfusion (h0.symm.trans h)⟩

/-- Claim C1, amended: on a *fitted* engine a `course_id` absent from the
corpus index raises `ValueError` (line 283); but when the engine cannot
be fitted because the corpus is empty, the call silently returns `[]`
rather than raising (lines 273-275; the spec's own §7 prescribes exactly
this non-fatal fallback for the empty-corpus case). -/
theorem c1_amended (load : Except Unit (List Course)) (s : EngineState)
    (cid : String) (topN : ℕ) (excl : Bool) (ms : ℝ) :
    (s.isFitted = true →
      (s.corpus.getD []).findIdx? (fun c => c.id = cid) = none →
      (getRecsE load s cid topN excl ms).2 = Except.error EngErr.notFound) ∧
    (s.isFitted = false → s.corpus = none → load = Except.ok [] →
      (getRecsE load s cid topN excl ms).2 = Except.ok []) := by
  constructor
  · intro hf hnone
    unfold getRecsE
    rw [hf]
    simp only [if_true]
    rw [hf]
    simp only [Bool.not_true, Bool.false_eq_true, if_false, hnone]
  · intro hf hc hl
    subst hl
    rcases s with ⟨c0, v0, m0, f0⟩
    simp only at hf hc
    subst hf
    subst hc
    rfl

/-- Witness for C1 at concrete states: the fitted engine `sFit` raises
`ValueError` for the unknown id `"zz"`, and a fresh engine over an empty
catalog returns `ok []`. -/
theorem c1_witness :
    (getRecsE (Except.ok [courseA]) sFit "zz" 10 false (0 : ℝ)).2 =
        Except.error EngErr.notFound ∧
      (getRecsE (Except.ok []) initState "zz" 10 false (0 : ℝ)).2 =
        Except.ok [] :=
  ⟨(c1_amended (Except.ok [courseA]) sFit "zz" 10 false 0).1 rfl (by decide),
    (c1_amended (Except.ok []) initState "zz" 10 false 0).2 rfl rfl rfl⟩

/-- Claim C2, counterexample: `refresh` clears `_is_fitted`,
`courses_df`, `tfidf_matrix` and `cosine_sim` *before* attempting the
refit (lines 491-494), so when the reload fails the previously fitted
state is gone: starting from the fitted engine `sFit`, a failing refresh
leaves the engine unfitted with no similarity matrix. -/
theorem c2_counterexample :
    (refreshE (Except.error ()) sFit).1.isFitted = false ∧
      sFit.isFitted = true ∧
      (refreshE (Except.error ()) sFit).1.matFit = none ∧
      sFit.matFit = some [courseA] :=
  ⟨rfl, rfl, rfl, rfl⟩

/-- Claim C2, amended: a failed `refresh` (reload or refit raising) does
*not* preserve the previous fitted state — it always leaves the engine
torn down: unfitted and with its similarity matrices cleared. -/
theorem fitCore_error_state (cs : List Course) (s1 : EngineState)
    (e : EngErr) (h : (fitCore cs s1).2 = Except.error e) :
    (fitCore cs s1).1.isFitted = s1.isFitted ∧
      (fitCore cs s1).1.matFit = s1.matFit := by
  unfold fitCore at h ⊢
  by_cases hemp : cs.isEmpty
  · rw [if_pos hemp] at h
    exact Except.noConfusion h
  · rw [if_neg hemp] at h ⊢
    by_cases hvoc : (vocabulary cs).isEmpty
    · rw [if_pos hvoc]
      exact ⟨rfl, rfl⟩
    · rw [if_neg hvoc] at h
      exact Except.noConfusion h

theorem fitE_error_state (load : Except Unit (List Course))
    (s : EngineState) (e : EngErr)
    (h : (fitE load s).2 = Except.error e) :
    (fitE load s).1.isFitted = s.isFitted ∧
      (fitE load s).1.matFit = s.matFit := by
  rcases s with ⟨c0, v0, m0, f0⟩
  cases c0 with
  | none =>
    cases load with
    | error u => exact ⟨rfl, rfl⟩
    | ok cs => exact fitCore_error_state cs _ e h
  | some df =>
    by_cases hd : df.isEmpty
    · cases load with
      | error u =>
        unfold fitE at h ⊢
        dsimp only at h ⊢
        rw [if_pos hd]
        exact ⟨rfl, rfl⟩
      | ok cs =>
        unfold fitE at h ⊢
        dsimp only at h ⊢
        rw [if_pos hd] at h ⊢
        exact fitCore_error_state cs _ e h
    · unfold fitE at h ⊢
      dsimp only at h ⊢
      rw [if_neg hd] at h ⊢
      exact fitCore_error_state df _ e h

theorem c2_amended (load : Except Unit (List Course)) (s : EngineState)
    (e : EngErr) (h : (refreshE load s).2 = Except.error e) :
    (refreshE load s).1.isFitted = false ∧
      (refreshE load s).1.matFit = none := by
  unfold refreshE at h ⊢
  exact fitE_error_state load _ e h

/-- Witness for C2: the concrete failing refresh of the fitted engine
`sFit`. -/
theorem c2_amended_witness :
    (refreshE (Except.error ()) sFit).1.isFitted = false ∧
      (refreshE (Except.error ()) sFit).1.matFit = none :=
  c2_amended (Except.error ()) sFit EngErr.loadFail rfl

/-- Claim C9, confirmed: the embedded pipeline is a pure function of the
corpus data — the code contains no randomness (TF-IDF fitting,
`linear_kernel` and the stable ranking are deterministic) — so two
engines fitted from identical catalog reads answer every identical query
identically: same ids in the same order with exactly equal scores
(stronger than the claimed 1e-9 tolerance). -/
theorem c9_determinism (load1 load2 : Except Unit (List Course))
    (cid q : String) (topN : ℕ) (excl : Bool) (ms : ℝ)
    (h : load1 = load2) :
    getRecsE load1 initState cid topN excl ms =
        getRecsE load2 initState cid topN excl ms ∧
      getTextE load1 initState q topN ms =
        getTextE load2 initState q topN ms := by
  subst h
  exact ⟨rfl, rfl⟩

/-- Witness for C9 at a concrete two-course catalog. -/
theorem c9_determinism_witness :
    getRecsE (Except.ok [courseA, courseB]) initState "a" 5 false (0 : ℝ) =
        getRecsE (Except.ok [courseA, courseB]) initState "a" 5 false 0 ∧
      getTextE (Except.ok [courseA, courseB]) initState "py" 5 (0 : ℝ) =
        getTextE (Except.ok [courseA, courseB]) initState "py" 5 0 :=
  c9_determinism (Except.ok [courseA, courseB]) (Except.ok [courseA, courseB])
    "a" "py" 5 false 0 rfl

/-- Claim C10, counterexample: the lazy `self.fit()` at line 371 runs
*before* the `try` block, so an exception raised while fitting (here: a
failing `load_data` read) propagates out of
`get_recommendations_for_text` instead of being caught and mapped to
`[]`. -/
theorem c10_counterexample :
    (getTextE (Except.error ()) initState "query" 10 0).2 =
      Except.error EngErr.loadFail := rfl

/-- Claim C10, amended: on an already-fitted engine
`get_recommendations_for_text` never propagates an exception — every
failure inside the `try` block yields `[]` and the call returns a list;
but on an unfitted engine an exception of the implicit `fit()` (failing
catalog read, or empty-vocabulary `ValueError`) escapes to the caller. -/
theorem c10_amended (load : Except Unit (List Course)) (s : EngineState)
    (q : String) (topN : ℕ) (ms : ℝ) :
    (s.isFitted = true →
      ∃ l, (getTextE load s q topN ms).2 = Except.ok l) ∧
    (∀ e, s.isFitted = false → (fitE load s).2 = Except.error e →
      (getTextE load s q topN ms).2 = Except.error e) := by
  constructor
  · intro hf
    unfold getTextE
    rw [hf]
    simp only [if_true]
    rw [hf]
    by_cases hv : s.vec.isNone
    · refine ⟨[], ?_⟩
      simp [hv]
    · refine ⟨getTextList (textRow (s.matFit.getD []) q)
        (s.matFit.getD []) topN ms, ?_⟩
      simp [hv]
  · intro e hf hfit
    unfold getTextE
    rw [hf]
    simp only [Bool.false_eq_true, if_false]
    rcases hE : fitE load s with ⟨s1, r⟩
    rw [hE] at hfit
    simp only at hfit
    subst hfit
    rfl

/-- Witness for C10: the fitted engine `sFit` answers a text query with
an `ok` list, and the concrete failing lazy fit propagates its error. -/
theorem c10_amended_witness :
    (∃ l, (getTextE (Except.ok [courseA]) sFit "py" 10 (0 : ℝ)).2 =
        Except.ok l) ∧
      (getTextE (Except.error ()) initState "py" 10 (0 : ℝ)).2 =
        Except.error EngErr.loadFail :=
  ⟨(c10_amended (Except.ok [courseA]) sFit "py" 10 0).1 rfl,
    (c10_amended (Except.error ()) initState "py" 10 0).2
      EngErr.loadFail rfl rfl⟩

end ApexRec

namespace ApexRec

/-- Claim C5, counterexample: the derived combined text is not the plain
lower-cased concatenation of the weighted raw fields — the code replaces
underscores in the category copies by spaces (line 144), so a course with
category `"data_science"` yields `"... data science data science"`, not
`"... data_science data_science"`. -/
theorem c5_counterexample :
    createCombinedText courseU ≠ combinedTextClaimed courseU := by
  decide

/-- Claim C5, amended: for every course record, the derived combined text
equals the lower-cased, edge-stripped concatenation in which the title
contributes 3 copies, the underscore-cleaned category contributes 2
copies, and description, difficulty, tags and instructor contribute 1
copy each; a missing (`NaN`) field is omitted from the concatenation, and
the derivation is total — it never fails. -/
theorem c5_amended (c : Course) :
    createCombinedText c = combinedTextAmended c := by
  rcases c with ⟨i, t, d, g, df, tg, ins⟩
  cases t <;> cases d <;> cases g <;> cases df <;> cases tg <;> cases ins <;> rfl

end ApexRec
